import Mathlib

/-!
Shallow embedding of the `1koro` personal-assistant core (Rust) in Lean 4,
together with theorems checking the natural-language specification against it.

Source files embedded (the module tree declared by `src/main.rs`):
- `src/agent.rs`   — `Agent::handle_message`, `Agent::compress_session`,
  `Agent::tool_loop`, `build_messages`, constants.
- `src/llm.rs`     — `Message` constructors, `ToolCall`, `LlmResponse`,
  `OpenRouterClient::chat` (retry/backoff policy).
- `src/session.rs` — `Session`, `SessionStore::save_to_disk`,
  `SessionStore::new` (startup scan), `SessionStore::session_filename`
  (Rust `DefaultHasher` = SipHash-1-3 with zero keys over the key's bytes
  followed by the `0xff` terminator that `Hash for str` appends).
- `src/mcp.rs`     — JSON-RPC envelope handling of `handle_rpc`.

Modelling conventions:
- Rust `Result<T>` becomes `Except String T` (the error message as the payload).
- The LLM provider is an oracle: the tool loop receives the response of its
  `i`-th chat call as `chat i : Except String LlmResponse`; the one-shot
  summarization call of `compress_session` is a single oracle value.
- Tool dispatch (`ToolRegistry::execute`) is an oracle
  `String → String → Except String ToolResult`.
- Externally visible effects (disk writes, LLM calls, log appends) are recorded
  in an explicit `Event` trace; disk writes are modelled as always succeeding
  (persistence failures are outside the claims treated here).
- Rust `String::len` is UTF-8 byte length, embedded as `String.utf8ByteSize`;
  `str::chars().count()` corresponds to `String.length`.
- Timestamps (`chrono::DateTime<Local>`) are modelled as integers: the claims
  only use their total order and the losslessness of their serialization.
-/

namespace Koro

/-- JSON values (`serde_json::Value`): numbers are restricted to integers,
which is all the embedded code produces. -/
inductive Json where
  | null : Json
  | bool (b : Bool) : Json
  | num (n : Int) : Json
  | str (s : String) : Json
  | arr (xs : List Json) : Json
  | obj (fields : List (String × Json)) : Json

/-- Rust `FunctionCall` from `src/llm.rs`. -/
structure FunctionCall where
  name : String
  arguments : String
deriving DecidableEq

/-- Rust `ToolCall` from `src/llm.rs` (`type_` is serialized as `"type"`). -/
structure ToolCall where
  id : String
  type_ : String
  function : FunctionCall
deriving DecidableEq

/-- Rust `Message` from `src/llm.rs`. -/
structure Message where
  role : String
  content : Option String
  tool_calls : Option (List ToolCall)
  tool_call_id : Option String
deriving DecidableEq

/-- Rust `Message::system`. -/
def Message.system (content : String) : Message :=
  ⟨"system", some content, none, none⟩

/-- Rust `Message::user`. -/
def Message.user (content : String) : Message :=
  ⟨"user", some content, none, none⟩

/-- Rust `Message::assistant`. -/
def Message.assistant (content : String) : Message :=
  ⟨"assistant", some content, none, none⟩

/-- Rust `Message::assistant_with_tool_calls`. -/
def Message.assistant_with_tool_calls (content : Option String)
    (tool_calls : List ToolCall) : Message :=
  ⟨"assistant", content, some tool_calls, none⟩

/-- Rust `Message::tool_result`. -/
def Message.tool_result (id content : String) : Message :=
  ⟨"tool", some content, none, some id⟩

/-- Rust `LlmResponse` from `src/llm.rs`. -/
structure LlmResponse where
  content : Option String
  tool_calls : List ToolCall
deriving DecidableEq

/-- Rust `ToolResult` from `src/tools/mod.rs`: the text handed back to the model. -/
structure ToolResult where
  for_llm : String
deriving DecidableEq

/-- Rust `Session` from `src/session.rs` (timestamp modelled as an integer). -/
structure Session where
  key : String
  messages : List Message
  summary : Option String
  updated_at : Int
deriving DecidableEq

/-- Rust `AgentResponse` from `src/agent.rs`. -/
structure AgentResponse where
  text : Option String
  actions : List Json

-- Constants from `src/agent.rs`.

/-- Rust `MAX_TOOL_ITERATIONS` from `src/agent.rs`. -/
def MAX_TOOL_ITERATIONS : Nat := 10

/-- Rust `SESSION_COMPRESS_THRESHOLD` from `src/agent.rs`. -/
def SESSION_COMPRESS_THRESHOLD : Nat := 20

/-- Rust `MAX_SUMMARY_LENGTH` from `src/agent.rs`. -/
def MAX_SUMMARY_LENGTH : Nat := 2000

/-- Externally visible effects of one `Agent::handle_message` turn, in order. -/
inductive Event where
  | save (s : Session) : Event
  | chatCompress : Event
  | chatLoop (i : Nat) : Event
  | logAppend (line : String) : Event
deriving DecidableEq

/-- Oracle for one tool dispatch: `ToolRegistry::execute(name, argsJson)`. -/
abbrev Executor := String → String → Except String ToolResult

/-- Oracle for the tool loop's LLM calls: the outcome of the `i`-th
`self.llm.chat(...)` call made by `Agent::tool_loop` during this turn. -/
abbrev ChatOracle := Nat → Except String LlmResponse

/-- Body of the per-call dispatch in `Agent::tool_loop` (src/agent.rs:248-257):
run the tool, turning a dispatch error into the in-band text
`"Tool error: <message>"`, and wrap the outcome as a tool-result message
tagged with the originating call's id. -/
def execToolCall (executor : Executor) (tc : ToolCall) : Message :=
  Message.tool_result tc.id
    (match executor tc.function.name tc.function.arguments with
      | .ok r => r.for_llm
      | .error e => "Tool error: " ++ e)

/-- The iteration structure of `Agent::tool_loop` (src/agent.rs:235-262):
`fuel` is the number of remaining iterations of `for _ in 0..MAX_TOOL_ITERATIONS`,
`i` counts the chat calls made so far (indexing the oracle), `messages` is the
accumulated request context and `new` the messages produced this turn.
Returns the trace of loop events together with the Rust function's result. -/
def toolLoopAux (chat : ChatOracle) (executor : Executor) :
    Nat → Nat → List Message → List Message →
    List Event × Except String (Option String × List Message)
  | 0, _, _, new =>
    ([], .ok (some "Tool use limit reached.", new))
  | fuel+1, i, messages, new =>
    match chat i with
    | .error e => ([Event.chatLoop i], .error e)
    | .ok resp =>
      if resp.tool_calls.isEmpty then
        ([Event.chatLoop i],
          .ok (resp.content,
            new ++ (match resp.content with
              | some c => [Message.assistant c]
              | none => [])))
      else
        let asst := Message.assistant_with_tool_calls resp.content resp.tool_calls
        let results := resp.tool_calls.map (execToolCall executor)
        let rest := toolLoopAux chat executor fuel (i+1)
          (messages ++ asst :: results) (new ++ asst :: results)
        (Event.chatLoop i :: rest.1, rest.2)

/-- Rust `Agent::tool_loop` (src/agent.rs:223-263). -/
def tool_loop (chat : ChatOracle) (executor : Executor) (messages : List Message) :
    List Event × Except String (Option String × List Message) :=
  toolLoopAux chat executor MAX_TOOL_ITERATIONS 0 messages []

/-- The `"role: content\n"` rendering of the older half of the history that
`Agent::compress_session` sends to the summarizer (src/agent.rs:188-195);
a message without text renders as the literal `[tool call]` placeholder. -/
def compressionInput (session : Session) : String :=
  let mid := session.messages.length / 2
  (session.messages.take mid).foldl
    (fun acc msg => acc ++ msg.role ++ ": " ++ (msg.content.getD "[tool call]") ++ "\n") ""

/-- Rust `Agent::compress_session` (src/agent.rs:186-221). `chatResult` is the
outcome of the one-shot summarization call `self.llm.chat(msgs, None)`;
on failure the session is left unchanged, on success the summary is merged
under the byte-length cap and the history keeps only its newer half. -/
def compress_session (chatResult : Except String LlmResponse) (session : Session) :
    Session :=
  let mid := session.messages.length / 2
  match chatResult with
  | .error _ => session
  | .ok resp =>
    let new_summary := resp.content.getD ""
    let summary :=
      match session.summary with
      | some prev =>
        let combined := prev ++ "\n\n" ++ new_summary
        if combined.utf8ByteSize > MAX_SUMMARY_LENGTH then new_summary else combined
      | none => new_summary
    { session with
        summary := some summary
        messages := session.messages.drop mid }

/-- The compression gate of `Agent::handle_message` (src/agent.rs:153-156):
compression runs only when the message count has reached
`SESSION_COMPRESS_THRESHOLD`, before the new user turn is added. -/
def compressPhase (chatResult : Except String LlmResponse) (session : Session) :
    Session :=
  if session.messages.length ≥ SESSION_COMPRESS_THRESHOLD then
    compress_session chatResult session
  else
    session

/-- Rust `build_messages` (src/agent.rs:94-107). The system prompt assembled by
`build_system_prompt` from memory files, the clock and the skill index is
abstracted as the input string `sysPrompt`; the claims never inspect it. -/
def build_messages (sysPrompt : String) (session : Session) : List Message :=
  Message.system sysPrompt ::
    ((match session.summary with
      | some summary => [Message.system ("Previous conversation summary:\n" ++ summary)]
      | none => []) ++ session.messages)

/-- Rust `Agent::handle_message` (src/agent.rs:141-184). Returns the ordered trace
of externally visible effects together with the Rust function's result; the
final session value is returned alongside the `AgentResponse` so theorems can
speak about the state left behind. `now` models `Local::now()`. -/
def handle_message (chatCompress : Except String LlmResponse) (chat : ChatOracle)
    (executor : Executor) (sysPrompt : String) (now : Int) (session : Session)
    (text channel user : String) :
    List Event × Except String (AgentResponse × Session) :=
  let key := channel ++ ":" ++ user
  -- compression check, before the new user turn is added
  let s1 := compressPhase chatCompress session
  let evs1 : List Event :=
    if session.messages.length ≥ SESSION_COMPRESS_THRESHOLD then
      [Event.chatCompress, Event.save s1]
    else
      []
  -- append the user turn and persist it before the tool loop runs
  let s2 : Session := { s1 with
    messages := s1.messages ++ [Message.user text]
    updated_at := now }
  let evs2 := evs1 ++ [Event.save s2,
    Event.logAppend ("[" ++ key ++ "] " ++ user ++ ": " ++ text)]
  let messages := build_messages sysPrompt s2
  let loop := tool_loop chat executor messages
  match loop.2 with
  | .error e => (evs2 ++ loop.1, .error e)
  | .ok (response_text, new_messages) =>
    let s3 : Session := { s2 with
      messages := s2.messages ++ new_messages
      updated_at := now }
    let evs3 := evs2 ++ loop.1 ++ [Event.save s3] ++
      (match response_text with
        | some r => [Event.logAppend ("[" ++ key ++ "] 1koro: " ++ r)]
        | none => [])
    (evs3, .ok (⟨response_text, []⟩, s3))

-- --- LLM client retry policy (`src/llm.rs`, `OpenRouterClient::chat`) ---

/-- Rust `ChoiceMessage` from `src/llm.rs`: the deserialized provider message. -/
structure ChoiceMessage where
  content : Option String
  tool_calls : Option (List ToolCall)
deriving DecidableEq

/-- Rust `Choice` from `src/llm.rs`. -/
structure Choice where
  message : ChoiceMessage
deriving DecidableEq

/-- Rust `ChatResponse` from `src/llm.rs`. -/
structure ChatResponse where
  choices : List Choice
deriving DecidableEq

/-- Rust `MAX_RETRIES` from `src/llm.rs`. -/
def MAX_RETRIES : Nat := 2

/-- The network-level outcome of one attempt of `OpenRouterClient::chat`:
either the send itself fails, or an HTTP response arrives with a status code,
an error-body text (read when the status is not a success) and the result of
parsing the body as a `ChatResponse` (used when the status is a success). -/
inductive AttemptOutcome where
  | netErr (e : String) : AttemptOutcome
  | httpResp (status : Nat) (body : String) (parsed : Except String ChatResponse) :
      AttemptOutcome

/-- Oracle giving the outcome of attempt number `a` (0-based). -/
abbrev AttemptOracle := Nat → AttemptOutcome

/-- The error string recorded for a retryable outcome
(`"Failed to call LLM API: {e}"` or `"LLM API error ({status}): {body}"`). -/
def attemptErrMsg : AttemptOutcome → String
  | .netErr e => "Failed to call LLM API: " ++ e
  | .httpResp status body _ => "LLM API error (" ++ toString status ++ "): " ++ body

/-- Retryable per `src/llm.rs:178-189`: a network failure, HTTP 429, or a 5xx
status (`reqwest::StatusCode::is_server_error` is 500..=599). -/
def retryable : AttemptOutcome → Prop
  | .netErr _ => True
  | .httpResp status _ _ => status = 429 ∨ (500 ≤ status ∧ status ≤ 599)

instance : DecidablePred retryable := fun o => by
  unfold retryable
  cases o <;> infer_instance

/-- The attempt loop of `OpenRouterClient::chat` (src/llm.rs:162-209).
`fuel` is the number of attempts still available (`for attempt in 0..=MAX_RETRIES`
makes `MAX_RETRIES + 1`), `attempt` the current attempt index, `lastErr` the
recorded error of the previous attempts. Returns the list of backoff sleeps
(in seconds, `1 << (attempt - 1)`) together with the call's result. -/
def chatGo (oracle : AttemptOracle) :
    Nat → Nat → Option String → List Nat × Except String LlmResponse
  | 0, _, lastErr =>
    ([], .error (lastErr.getD "LLM request failed after retries"))
  | fuel+1, attempt, _lastErr =>
    let sleeps : List Nat := if attempt > 0 then [2 ^ (attempt - 1)] else []
    let step : List Nat × Except String LlmResponse :=
      match oracle attempt with
      | .netErr e =>
        chatGo oracle fuel (attempt + 1) (some ("Failed to call LLM API: " ++ e))
      | .httpResp status body parsed =>
        if status = 429 ∨ (500 ≤ status ∧ status ≤ 599) then
          chatGo oracle fuel (attempt + 1)
            (some ("LLM API error (" ++ toString status ++ "): " ++ body))
        else if ¬ (200 ≤ status ∧ status ≤ 299) then
          ([], .error ("LLM API error (" ++ toString status ++ "): " ++ body))
        else
          match parsed with
          | .error e => ([], .error e)
          | .ok cr =>
            match cr.choices with
            | [] => ([], .error "No choices in LLM response")
            | c :: _ => ([], .ok ⟨c.message.content, c.message.tool_calls.getD []⟩)
    (sleeps ++ step.1, step.2)

/-- Rust `OpenRouterClient::chat` (src/llm.rs:152-212): up to `MAX_RETRIES`
additional attempts beyond the first. -/
def chat_with_retries (oracle : AttemptOracle) :
    List Nat × Except String LlmResponse :=
  chatGo oracle (MAX_RETRIES + 1) 0 none

-- --- Session filename (`src/session.rs`, `SessionStore::session_filename`) ---

/-- Truncation to 64 bits (`u64` wrapping semantics). -/
def w64 (x : Nat) : Nat := x % 2 ^ 64

/-- 64-bit left rotation. -/
def rotl64 (x r : Nat) : Nat := w64 ((x <<< r) % 2 ^ 64 ||| x >>> (64 - r))

/-- 64-bit wrapping addition. -/
def add64 (a b : Nat) : Nat := w64 (a + b)

/-- 64-bit xor. -/
def xor64 (a b : Nat) : Nat := w64 (a ^^^ b)

/-- The internal state of SipHash: the four 64-bit words `v0 v1 v2 v3`. -/
structure SipState where
  v0 : Nat
  v1 : Nat
  v2 : Nat
  v3 : Nat

/-- One SipHash round (the `SIPROUND` of the reference implementation used by
Rust's `std::hash::SipHasher13` behind `DefaultHasher`). -/
def sipRound (s : SipState) : SipState :=
  let v0 := add64 s.v0 s.v1
  let v1 := rotl64 s.v1 13
  let v1 := xor64 v1 v0
  let v0 := rotl64 v0 32
  let v2 := add64 s.v2 s.v3
  let v3 := rotl64 s.v3 16
  let v3 := xor64 v3 v2
  let v0 := add64 v0 v3
  let v3 := rotl64 v3 21
  let v3 := xor64 v3 v0
  let v2 := add64 v2 v1
  let v1 := rotl64 v1 17
  let v1 := xor64 v1 v2
  let v2 := rotl64 v2 32
  ⟨v0, v1, v2, v3⟩

/-- Iterated SipHash rounds. -/
def sipRounds : Nat → SipState → SipState
  | 0, s => s
  | n+1, s => sipRounds n (sipRound s)

/-- Absorb one 64-bit message word: `v3 ^= m`, `c` rounds, `v0 ^= m`
(`c = 1` for SipHash-1-3). -/
def sipCompress (m : Nat) (s : SipState) : SipState :=
  let s := { s with v3 := xor64 s.v3 m }
  let s := sipRounds 1 s
  { s with v0 := xor64 s.v0 m }

/-- Little-endian value of a byte list (lowest byte first). -/
def le64 (bs : List Nat) : Nat := bs.foldr (fun b acc => b + 256 * acc) 0

/-- Process the message blocks: full 8-byte blocks are absorbed one by one; the
final partial block carries the remaining bytes in its low positions and the
total length modulo 256 in its top byte, then finalization xors `0xff` into
`v2`, runs `d = 3` rounds and xors the four state words together. -/
def sipBlocks (len : Nat) : List Nat → SipState → Nat
  | b0 :: b1 :: b2 :: b3 :: b4 :: b5 :: b6 :: b7 :: rest, s =>
    sipBlocks len rest (sipCompress (le64 [b0, b1, b2, b3, b4, b5, b6, b7]) s)
  | rest, s =>
    let m := w64 ((len % 256) <<< 56 + le64 rest)
    let s := sipCompress m s
    let s := { s with v2 := xor64 s.v2 0xff }
    let s := sipRounds 3 s
    w64 (s.v0 ^^^ s.v1 ^^^ s.v2 ^^^ s.v3)

/-- SipHash-1-3 with key `k0 = k1 = 0`, the algorithm of
`std::collections::hash_map::DefaultHasher::new()` used by
`SessionStore::session_filename`. -/
def sipHash13 (data : List Nat) : Nat :=
  sipBlocks data.length data
    ⟨0x736f6d6570736575, 0x646f72616e646f6d, 0x6c7967656e657261, 0x7465646279746573⟩

/-- Rust `hasher.finish()` after `key.hash(&mut hasher)`: `Hash for str` feeds the
key's bytes followed by the `0xff` terminator byte into the hasher. Keys are
modelled as their byte lists. -/
def defaultHash (key : List Nat) : Nat := sipHash13 (key ++ [0xff])

/-- One hexadecimal digit character (lowercase, as `format!("{:016x}")`). -/
def hexChar (d : Nat) : Char :=
  if d < 10 then Char.ofNat (48 + d) else Char.ofNat (87 + d)

/-- Rust `format!("{:016x}", n)`: the 16-digit zero-padded lowercase hexadecimal
rendering of a 64-bit value. -/
def toHex16 (n : Nat) : String :=
  String.mk ((List.range 16).map (fun i => hexChar (n / 16 ^ (15 - i) % 16)))

/-- Rust `SessionStore::session_filename` (src/session.rs:97-101): the fixed-width
hexadecimal rendering of the key's stable 64-bit hash. -/
def session_filename (key : List Nat) : String := toHex16 (defaultHash key)

-- --- Session persistence (`src/session.rs`) ---

/-- Field access on a JSON object (first binding wins, as our serializer never
produces duplicate keys). -/
def Json.getField : Json → String → Option Json
  | .obj fields, name => fields.lookup name
  | _, _ => none

/-- String payload of a JSON value. -/
def Json.asStr : Json → Option String
  | .str s => some s
  | _ => none

/-- Traversal of a JSON array with a per-element parser, failing when any
element fails (serde's `Vec<T>` deserialization). -/
def parseList {α : Type} (f : Json → Option α) : List Json → Option (List α)
  | [] => some []
  | x :: xs => do
    let a ← f x
    let rest ← parseList f xs
    pure (a :: rest)

/-- serde serialization of `FunctionCall` (derive `Serialize`). -/
def FunctionCall.toJson (f : FunctionCall) : Json :=
  .obj [("name", .str f.name), ("arguments", .str f.arguments)]

/-- serde serialization of `ToolCall` (`type_` renamed to `"type"`). -/
def ToolCall.toJson (tc : ToolCall) : Json :=
  .obj [("id", .str tc.id), ("type", .str tc.type_), ("function", tc.function.toJson)]

/-- serde serialization of `Message`: `content`, `tool_calls` and
`tool_call_id` carry `skip_serializing_if = "Option::is_none"`, so a `None`
field is omitted entirely. -/
def Message.toJson (m : Message) : Json :=
  .obj ([("role", .str m.role)] ++
    (match m.content with
      | some c => [("content", .str c)]
      | none => []) ++
    (match m.tool_calls with
      | some tcs => [("tool_calls", .arr (tcs.map ToolCall.toJson))]
      | none => []) ++
    (match m.tool_call_id with
      | some i => [("tool_call_id", .str i)]
      | none => []))

/-- serde serialization of `Session`: `summary` has no skip attribute, so
`None` serializes as `null`; the timestamp is modelled as a JSON integer
(chrono's RFC 3339 string is a lossless rendering the claims never inspect). -/
def Session.toJson (s : Session) : Json :=
  .obj [("key", .str s.key),
    ("messages", .arr (s.messages.map Message.toJson)),
    ("summary", match s.summary with
      | some t => .str t
      | none => .null),
    ("updated_at", .num s.updated_at)]

/-- serde deserialization of an `Option<String>` field marked
`#[serde(default)]`: an absent field and an explicit `null` both give `None`;
any non-string, non-null value is a type error. -/
def optStrField (j : Json) (name : String) : Option (Option String) :=
  match j.getField name with
  | none => some none
  | some .null => some none
  | some (.str s) => some (some s)
  | some _ => none

/-- serde deserialization of `FunctionCall`. -/
def FunctionCall.fromJson (j : Json) : Option FunctionCall := do
  let name ← (j.getField "name").bind Json.asStr
  let arguments ← (j.getField "arguments").bind Json.asStr
  pure ⟨name, arguments⟩

/-- serde deserialization of `ToolCall`. -/
def ToolCall.fromJson (j : Json) : Option ToolCall := do
  let id ← (j.getField "id").bind Json.asStr
  let type_ ← (j.getField "type").bind Json.asStr
  let function ← (j.getField "function").bind FunctionCall.fromJson
  pure ⟨id, type_, function⟩

/-- serde deserialization of `Message` (all optional fields default to `None`
when absent, per `#[serde(default)]`). -/
def Message.fromJson (j : Json) : Option Message := do
  let role ← (j.getField "role").bind Json.asStr
  let content ← optStrField j "content"
  let tool_calls ←
    match j.getField "tool_calls" with
    | none => some none
    | some .null => some none
    | some (.arr xs) => (parseList ToolCall.fromJson xs).map some
    | some _ => none
  let tool_call_id ← optStrField j "tool_call_id"
  pure ⟨role, content, tool_calls, tool_call_id⟩

/-- serde deserialization of `Session`. -/
def Session.fromJson (j : Json) : Option Session := do
  let key ← (j.getField "key").bind Json.asStr
  let messages ←
    match j.getField "messages" with
    | some (.arr xs) => parseList Message.fromJson xs
    | _ => none
  let summary ← optStrField j "summary"
  let updated_at ←
    match j.getField "updated_at" with
    | some (.num n) => some n
    | _ => none
  pure ⟨key, messages, summary, updated_at⟩

/-- UTF-8 bytes of a key string. -/
def keyBytes (s : String) : List Nat := s.toUTF8.toList.map UInt8.toNat

/-- The session directory: one JSON document per `.json` file, keyed by the
filename stem. -/
abbrev Dir := List (String × Json)

/-- Atomic replace of one file (the net effect of the write-temp-then-rename
in `save_to_disk`): any previous file of that name is replaced. -/
def setFile (dir : Dir) (name : String) (content : Json) : Dir :=
  dir.filter (fun e => e.1 != name) ++ [(name, content)]

/-- Rust `SessionStore::save_to_disk` (src/session.rs:80-95): serialize the session
and atomically replace `sessions/<hash-of-key>.json`. -/
def save_to_disk (dir : Dir) (key : String) (s : Session) : Dir :=
  setFile dir (session_filename (keyBytes key)) s.toJson

/-- The `HashMap::entry(key).and_modify(..).or_insert(..)` step of the startup
scan: a record for a new key is inserted, a record for an already-seen key
replaces the existing one only when its timestamp is strictly later. -/
def insertLater : List (String × Session) → Session → List (String × Session)
  | [], s => [(s.key, s)]
  | (k, e) :: rest, s =>
    if k = s.key then
      (k, if s.updated_at > e.updated_at then s else e) :: rest
    else
      (k, e) :: insertLater rest s

/-- The startup scan of `SessionStore::new` (src/session.rs:33-55): every file
that parses as a `Session` is registered under the key stored *inside* the
record, later timestamp winning on key conflicts; unparsable files are
skipped. -/
def loadSessions (dir : Dir) : List (String × Session) :=
  dir.foldl
    (fun acc entry =>
      match Session.fromJson entry.2 with
      | some s => insertLater acc s
      | none => acc)
    []

/-- The in-memory session a fresh `SessionStore` over `dir` holds for `key`. -/
def loadedSession (dir : Dir) (key : String) : Option Session :=
  (loadSessions dir).lookup key

-- --- JSON-RPC tool-access endpoint (`src/mcp.rs`) ---

/-- Rust `JsonRpcRequest` from `src/mcp.rs`: `id` is an optional JSON value. -/
structure JsonRpcRequest where
  jsonrpc : String
  id : Option Json
  method : String
  params : Json

/-- Rust `JsonRpcError` from `src/mcp.rs`. -/
structure JsonRpcError where
  code : Int
  message : String

/-- Rust `JsonRpcResponse` from `src/mcp.rs`. -/
structure JsonRpcResponse where
  jsonrpc : String
  id : Json
  result : Option Json
  error : Option JsonRpcError

/-- Rust `JsonRpcResponse::ok`. -/
def JsonRpcResponse.ok (id result : Json) : JsonRpcResponse :=
  ⟨"2.0", id, some result, none⟩

/-- Rust `JsonRpcResponse::err`. -/
def JsonRpcResponse.err (id : Json) (code : Int) (msg : String) : JsonRpcResponse :=
  ⟨"2.0", id, none, some ⟨code, msg⟩⟩

/-- The static tool list of `tools_list()` (src/mcp.rs:138-149). -/
def tools_list : Json :=
  .arr [
    .obj [("name", .str "read_core_memory"),
      ("description", .str "Read identity.md, user.md, or state.md"),
      ("inputSchema", .obj [("type", .str "object"),
        ("properties", .obj [("file", .obj [("type", .str "string"),
          ("enum", .arr [.str "identity.md", .str "user.md", .str "state.md"])])]),
        ("required", .arr [.str "file"])])],
    .obj [("name", .str "update_core_memory"),
      ("description", .str "Update user.md or state.md"),
      ("inputSchema", .obj [("type", .str "object"),
        ("properties", .obj [("file", .obj [("type", .str "string"),
          ("enum", .arr [.str "user.md", .str "state.md"])]),
          ("content", .obj [("type", .str "string")])]),
        ("required", .arr [.str "file", .str "content"])])],
    .obj [("name", .str "search_logs"),
      ("description", .str "Search past logs for a keyword"),
      ("inputSchema", .obj [("type", .str "object"),
        ("properties", .obj [("query", .obj [("type", .str "string")])]),
        ("required", .arr [.str "query"])])],
    .obj [("name", .str "read_daily_log"),
      ("description", .str "Read a daily log by date (YYYY-MM-DD)"),
      ("inputSchema", .obj [("type", .str "object"),
        ("properties", .obj [("date", .obj [("type", .str "string")])]),
        ("required", .arr [.str "date"])])]]

/-- The `initialize` result object (src/mcp.rs:122-126). -/
def initResult (serverName version : String) : Json :=
  .obj [("protocolVersion", .str "2024-11-05"),
    ("capabilities", .obj [("tools", .obj [])]),
    ("serverInfo", .obj [("name", .str serverName), ("version", .str version)])]

/-- Oracle for `tools_call` (src/mcp.rs:151-215), which consults the memory
store: given `params`, either the result value or `(code, message)`. -/
abbrev ToolsCallFn := Json → Except (Int × String) Json

/-- Rust `handle_rpc` (src/mcp.rs:106-136): a missing `id` is replaced by JSON
`null` and the request is processed normally; every code path returns an HTTP
200 response with a JSON-RPC response body. -/
def handle_rpc (serverName version : String) (toolsCall : ToolsCallFn)
    (req : JsonRpcRequest) : Nat × JsonRpcResponse :=
  let id := req.id.getD Json.null
  if req.jsonrpc ≠ "2.0" then
    (200, JsonRpcResponse.err id (-32600) "Invalid JSON-RPC version")
  else
    let result : Except (Int × String) Json :=
      if req.method = "initialize" then .ok (initResult serverName version)
      else if req.method = "tools/list" then .ok (Json.obj [("tools", tools_list)])
      else if req.method = "tools/call" then toolsCall req.params
      else .error (-32601, "Method not found: " ++ req.method)
    match result with
    | .ok v => (200, JsonRpcResponse.ok id v)
    | .error (code, msg) => (200, JsonRpcResponse.err id code msg)

/-- The HTTP reply the endpoint sends for a request: `none` would model a
notification that receives no reply; the handler returns a response on every
code path, so this is always `some`. -/
def rpcResponseSent (serverName version : String) (toolsCall : ToolsCallFn)
    (req : JsonRpcRequest) : Option (Nat × JsonRpcResponse) :=
  some (handle_rpc serverName version toolsCall req)

/-- The session snapshot a `save` event carries. -/
def saveOf : Event → Option Session
  | Event.save s => some s
  | _ => none

/-- The session snapshot of the last `save_to_disk` call in a trace. -/
def lastSave (evs : List Event) : Option Session :=
  (evs.filterMap saveOf).getLast?

/-- True of events that are LLM calls made by the tool loop. -/
def Event.isChatLoop : Event → Bool
  | Event.chatLoop _ => true
  | _ => false

-- ===================================================================
-- Theorems
-- ===================================================================

/-- One iteration of the tool loop on a response that carries tool calls:
the assistant message bundling the calls and one tool-result message per call
are appended, and the loop continues with the next iteration. -/
theorem toolLoopAux_step (chat : ChatOracle) (executor : Executor)
    (fuel i : Nat) (ms new : List Message) (resp : LlmResponse)
    (hok : chat i = .ok resp) (hne : resp.tool_calls ≠ []) :
    toolLoopAux chat executor (fuel+1) i ms new =
      (Event.chatLoop i ::
        (toolLoopAux chat executor fuel (i+1)
          (ms ++ Message.assistant_with_tool_calls resp.content resp.tool_calls ::
            resp.tool_calls.map (execToolCall executor))
          (new ++ Message.assistant_with_tool_calls resp.content resp.tool_calls ::
            resp.tool_calls.map (execToolCall executor))).1,
       (toolLoopAux chat executor fuel (i+1)
          (ms ++ Message.assistant_with_tool_calls resp.content resp.tool_calls ::
            resp.tool_calls.map (execToolCall executor))
          (new ++ Message.assistant_with_tool_calls resp.content resp.tool_calls ::
            resp.tool_calls.map (execToolCall executor))).2) := by
  obtain ⟨a, as, htc⟩ : ∃ a as, resp.tool_calls = a :: as := by
    cases h : resp.tool_calls with
    | nil => exact absurd h hne
    | cons a as => exact ⟨a, as, rfl⟩
  simp [toolLoopAux, hok, htc]

/-- When every LLM call of the turn succeeds, the tool loop returns `Ok`
regardless of how many tool dispatches fail. -/
theorem toolLoopAux_allOk (respFn : Nat → LlmResponse) (executor : Executor) :
    ∀ (fuel i : Nat) (ms new : List Message),
      ∃ out, (toolLoopAux (fun k => .ok (respFn k)) executor fuel i ms new).2 = .ok out := by
  intro fuel
  induction fuel with
  | zero => intro i ms new; exact ⟨_, rfl⟩
  | succ fuel ih =>
    intro i ms new
    cases hE : (respFn i).tool_calls.isEmpty with
    | true =>
      exact ⟨((respFn i).content,
        new ++ (match (respFn i).content with
          | some c => [Message.assistant c]
          | none => [])), by simp [toolLoopAux, hE]⟩
    | false =>
      obtain ⟨out, hout⟩ := ih (i+1)
        (ms ++ Message.assistant_with_tool_calls (respFn i).content (respFn i).tool_calls ::
          (respFn i).tool_calls.map (execToolCall executor))
        (new ++ Message.assistant_with_tool_calls (respFn i).content (respFn i).tool_calls ::
          (respFn i).tool_calls.map (execToolCall executor))
      exact ⟨out, by simp [toolLoopAux, hE, hout]⟩

/-- When every response of the oracle carries tool calls, the loop runs all its
iterations and the trace is one assistant-plus-results block per iteration. -/
theorem toolLoopAux_saturated (respFn : Nat → LlmResponse) (executor : Executor) :
    ∀ (fuel i : Nat) (ms new : List Message),
      (∀ j, j < fuel → (respFn (i + j)).tool_calls ≠ []) →
      toolLoopAux (fun k => .ok (respFn k)) executor fuel i ms new =
        ((List.range fuel).map (fun j => Event.chatLoop (i + j)),
         .ok (some "Tool use limit reached.",
           new ++ (List.range fuel).flatMap (fun j =>
             Message.assistant_with_tool_calls (respFn (i + j)).content
                 (respFn (i + j)).tool_calls ::
               (respFn (i + j)).tool_calls.map (execToolCall executor)))) := by
  intro fuel
  induction fuel with
  | zero => intro i ms new _h; simp [toolLoopAux]
  | succ fuel ih =>
    intro i ms new h
    rw [toolLoopAux_step (fun k => .ok (respFn k)) executor fuel i ms new (respFn i) rfl
      (by simpa using h 0 (Nat.succ_pos _))]
    rw [ih (i+1) _ _ (fun j hj => by
      have hx := h (j+1) (Nat.succ_lt_succ hj)
      rwa [Nat.add_succ, ← Nat.succ_add] at hx)]
    have hev : (fun j => Event.chatLoop (i + 1 + j)) =
        ((fun j => Event.chatLoop (i + j)) ∘ Nat.succ) :=
      funext (fun j => congrArg Event.chatLoop (by omega))
    have hbl : (fun j =>
        Message.assistant_with_tool_calls (respFn (i + 1 + j)).content
            (respFn (i + 1 + j)).tool_calls ::
          (respFn (i + 1 + j)).tool_calls.map (execToolCall executor)) =
        ((fun j =>
          Message.assistant_with_tool_calls (respFn (i + j)).content
              (respFn (i + j)).tool_calls ::
            (respFn (i + j)).tool_calls.map (execToolCall executor)) ∘ Nat.succ) :=
      funext (fun j => by
        have hq : i + 1 + j = i + Nat.succ j := by omega
        simp only [Function.comp_apply]
        rw [hq])
    rw [hev, hbl, List.range_succ_eq_map]
    simp [List.flatMap_cons, List.flatMap_map, List.map_map, List.append_assoc,
      Function.comp_def, Nat.succ_eq_add_one]

/-- C1: for every finite sequence of LLM responses the tool loop terminates
within `MAX_TOOL_ITERATIONS = 10` chat calls; when every response carries tool
calls the bound is exhausted, the reply text is exactly
`"Tool use limit reached."`, and the produced trace is, per iteration, one
assistant message bundling the calls followed by one id-tagged tool-result
message per call in order; with one call per response its length is
`2 × 10`. -/
theorem c1_tool_loop_exhaustion (respFn : Nat → LlmResponse) (executor : Executor)
    (messages : List Message)
    (h : ∀ i, i < MAX_TOOL_ITERATIONS → (respFn i).tool_calls ≠ []) :
    ∃ trace : List Message,
      tool_loop (fun k => .ok (respFn k)) executor messages =
        ((List.range MAX_TOOL_ITERATIONS).map Event.chatLoop,
         .ok (some "Tool use limit reached.", trace)) ∧
      trace = (List.range MAX_TOOL_ITERATIONS).flatMap (fun i =>
        Message.assistant_with_tool_calls (respFn i).content (respFn i).tool_calls ::
          (respFn i).tool_calls.map (execToolCall executor)) ∧
      ((∀ i, i < MAX_TOOL_ITERATIONS → ((respFn i).tool_calls).length = 1) →
        trace.length = 2 * MAX_TOOL_ITERATIONS) := by
  refine ⟨_, ?_, rfl, ?_⟩
  · have hs := toolLoopAux_saturated respFn executor MAX_TOOL_ITERATIONS 0 messages []
      (by simpa using h)
    simpa [tool_loop] using hs
  · intro h1
    rw [List.length_flatMap]
    simp only [Function.comp_def]
    have hc : (List.range MAX_TOOL_ITERATIONS).map (fun i =>
        (Message.assistant_with_tool_calls (respFn i).content (respFn i).tool_calls ::
          (respFn i).tool_calls.map (execToolCall executor)).length) =
        (List.range MAX_TOOL_ITERATIONS).map (fun _ => 2) := by
      refine List.map_congr_left (fun a ha => ?_)
      simp [h1 a (List.mem_range.mp ha)]
    rw [hc]
    decide

/-- Witness for C1 at a concrete oracle that always requests one tool call. -/
theorem c1_witness :
    ∃ trace : List Message,
      tool_loop
        (fun k => .ok ((fun _ : Nat =>
          LlmResponse.mk none [⟨"t1", "function", ⟨"echo", ""⟩⟩]) k))
        (fun _ _ => .ok ⟨"ok"⟩) [] =
        ((List.range MAX_TOOL_ITERATIONS).map Event.chatLoop,
         .ok (some "Tool use limit reached.", trace)) ∧
      trace = (List.range MAX_TOOL_ITERATIONS).flatMap (fun i =>
        Message.assistant_with_tool_calls
            ((fun _ : Nat => LlmResponse.mk none [⟨"t1", "function", ⟨"echo", ""⟩⟩]) i).content
            ((fun _ : Nat => LlmResponse.mk none [⟨"t1", "function", ⟨"echo", ""⟩⟩]) i).tool_calls ::
          ((fun _ : Nat =>
            LlmResponse.mk none [⟨"t1", "function", ⟨"echo", ""⟩⟩]) i).tool_calls.map
            (execToolCall (fun _ _ => .ok ⟨"ok"⟩))) ∧
      ((∀ i, i < MAX_TOOL_ITERATIONS →
          (((fun _ : Nat =>
            LlmResponse.mk none [⟨"t1", "function", ⟨"echo", ""⟩⟩]) i).tool_calls).length = 1) →
        trace.length = 2 * MAX_TOOL_ITERATIONS) :=
  c1_tool_loop_exhaustion
    (fun _ => LlmResponse.mk none [⟨"t1", "function", ⟨"echo", ""⟩⟩])
    (fun _ _ => .ok ⟨"ok"⟩) [] (by decide)

/-- C3: a tool dispatch error is converted into the tool-result text
`"Tool error: <message>"` bound to the call's id; the loop appends every
call's result in order and continues with the next iteration; and as long as
the LLM calls themselves succeed the loop returns `Ok` — a failing tool never
aborts it. -/
theorem c3_tool_error_contained (executor : Executor) (tc : ToolCall) (e : String)
    (hfail : executor tc.function.name tc.function.arguments = .error e)
    (respFn : Nat → LlmResponse) (messages : List Message) :
    execToolCall executor tc = Message.tool_result tc.id ("Tool error: " ++ e) ∧
    (∀ (chat : ChatOracle) (fuel i : Nat) (ms new : List Message) (resp : LlmResponse),
      chat i = .ok resp → resp.tool_calls ≠ [] →
      toolLoopAux chat executor (fuel+1) i ms new =
        (Event.chatLoop i ::
          (toolLoopAux chat executor fuel (i+1)
            (ms ++ Message.assistant_with_tool_calls resp.content resp.tool_calls ::
              resp.tool_calls.map (execToolCall executor))
            (new ++ Message.assistant_with_tool_calls resp.content resp.tool_calls ::
              resp.tool_calls.map (execToolCall executor))).1,
         (toolLoopAux chat executor fuel (i+1)
            (ms ++ Message.assistant_with_tool_calls resp.content resp.tool_calls ::
              resp.tool_calls.map (execToolCall executor))
            (new ++ Message.assistant_with_tool_calls resp.content resp.tool_calls ::
              resp.tool_calls.map (execToolCall executor))).2)) ∧
    (∃ out, (tool_loop (fun k => .ok (respFn k)) executor messages).2 = .ok out) := by
  refine ⟨by simp [execToolCall, hfail], ?_, ?_⟩
  · intro chat fuel i ms new resp hok hne
    exact toolLoopAux_step chat executor fuel i ms new resp hok hne
  · exact toolLoopAux_allOk respFn executor MAX_TOOL_ITERATIONS 0 messages []

/-- Witness for C3 at a concrete always-failing executor. -/
theorem c3_witness :
    execToolCall (fun _ _ => .error "boom") ⟨"t1", "function", ⟨"f", "x"⟩⟩ =
      Message.tool_result "t1" ("Tool error: " ++ "boom") ∧
    (∀ (chat : ChatOracle) (fuel i : Nat) (ms new : List Message) (resp : LlmResponse),
      chat i = .ok resp → resp.tool_calls ≠ [] →
      toolLoopAux chat (fun _ _ => .error "boom") (fuel+1) i ms new =
        (Event.chatLoop i ::
          (toolLoopAux chat (fun _ _ => .error "boom") fuel (i+1)
            (ms ++ Message.assistant_with_tool_calls resp.content resp.tool_calls ::
              resp.tool_calls.map (execToolCall (fun _ _ => .error "boom")))
            (new ++ Message.assistant_with_tool_calls resp.content resp.tool_calls ::
              resp.tool_calls.map (execToolCall (fun _ _ => .error "boom")))).1,
         (toolLoopAux chat (fun _ _ => .error "boom") fuel (i+1)
            (ms ++ Message.assistant_with_tool_calls resp.content resp.tool_calls ::
              resp.tool_calls.map (execToolCall (fun _ _ => .error "boom")))
            (new ++ Message.assistant_with_tool_calls resp.content resp.tool_calls ::
              resp.tool_calls.map (execToolCall (fun _ _ => .error "boom")))).2)) ∧
    (∃ out, (tool_loop (fun k => .ok ((fun _ : Nat => LlmResponse.mk (some "done") []) k))
      (fun _ _ => .error "boom") []).2 = .ok out) :=
  c3_tool_error_contained (fun _ _ => .error "boom") ⟨"t1", "function", ⟨"f", "x"⟩⟩ "boom"
    rfl (fun _ => LlmResponse.mk (some "done") []) []

/-- The tool loop's event trace consists of `chatLoop` events only. -/
theorem toolLoopAux_no_saves (chat : ChatOracle) (executor : Executor) :
    ∀ (fuel i : Nat) (ms new : List Message),
      (toolLoopAux chat executor fuel i ms new).1.filterMap saveOf = [] := by
  intro fuel
  induction fuel with
  | zero => intro i ms new; rfl
  | succ fuel ih =>
    intro i ms new
    cases hok : chat i with
    | error e => simp [toolLoopAux, hok, saveOf]
    | ok resp =>
      cases hE : resp.tool_calls.isEmpty with
      | true => simp [toolLoopAux, hok, hE, saveOf]
      | false => simp [toolLoopAux, hok, hE, saveOf, ih]

/-- C2: `handle_message` appends the new user message to the session and
persists it to disk before the first LLM call of the tool-calling loop, and
whatever happens afterwards — including a tool-loop or LLM failure — the last
persisted snapshot contains the user's message. -/
theorem c2_user_turn_persisted (chatCompress : Except String LlmResponse)
    (chat : ChatOracle) (executor : Executor) (sysPrompt : String) (now : Int)
    (session : Session) (text channel user : String) :
    ∃ (pre rest : List Event) (s2 : Session),
      (handle_message chatCompress chat executor sysPrompt now session text channel user).1 =
        pre ++ Event.save s2 :: rest ∧
      Message.user text ∈ s2.messages ∧
      pre.all (fun ev => !ev.isChatLoop) = true ∧
      ∃ sl, lastSave (handle_message chatCompress chat executor sysPrompt now
          session text channel user).1 = some sl ∧ Message.user text ∈ sl.messages := by
  have hns : ∀ ms : List Message, (tool_loop chat executor ms).1.filterMap saveOf = [] :=
    fun ms => toolLoopAux_no_saves chat executor MAX_TOOL_ITERATIONS 0 ms []
  unfold handle_message
  by_cases hth : session.messages.length ≥ SESSION_COMPRESS_THRESHOLD <;>
    simp only [hth, if_true, if_false, ite_true, ite_false] <;>
    split
  case pos.h_1 e heq =>
    refine ⟨[Event.chatCompress, Event.save (compressPhase chatCompress session)],
      Event.logAppend ("[" ++ (channel ++ ":" ++ user) ++ "] " ++ user ++ ": " ++ text) ::
        (tool_loop chat executor (build_messages sysPrompt
          { compressPhase chatCompress session with
              messages := (compressPhase chatCompress session).messages ++ [Message.user text],
              updated_at := now })).1,
      { compressPhase chatCompress session with
          messages := (compressPhase chatCompress session).messages ++ [Message.user text],
          updated_at := now }, by simp, by simp, rfl,
      { compressPhase chatCompress session with
          messages := (compressPhase chatCompress session).messages ++ [Message.user text],
          updated_at := now }, ?_, by simp⟩
    simp [lastSave, List.filterMap_append, saveOf, hns]
  case pos.h_2 out rt nm heq =>
    refine ⟨[Event.chatCompress, Event.save (compressPhase chatCompress session)],
      Event.logAppend ("[" ++ (channel ++ ":" ++ user) ++ "] " ++ user ++ ": " ++ text) ::
        ((tool_loop chat executor (build_messages sysPrompt
          { compressPhase chatCompress session with
              messages := (compressPhase chatCompress session).messages ++ [Message.user text],
              updated_at := now })).1 ++
          Event.save { compressPhase chatCompress session with
              messages := ((compressPhase chatCompress session).messages ++
                [Message.user text]) ++ nm,
              updated_at := now } ::
            (match rt with
              | some r =>
                [Event.logAppend ("[" ++ (channel ++ ":" ++ user) ++ "] 1koro: " ++ r)]
              | none => [])),
      { compressPhase chatCompress session with
          messages := (compressPhase chatCompress session).messages ++ [Message.user text],
          updated_at := now }, by cases rt <;> simp, by simp, rfl,
      { compressPhase chatCompress session with
          messages := ((compressPhase chatCompress session).messages ++
            [Message.user text]) ++ nm,
          updated_at := now }, ?_, by simp⟩
    cases rt <;>
      simp [lastSave, List.filterMap_append, saveOf, hns]
  case neg.h_1 e heq =>
    refine ⟨[],
      Event.logAppend ("[" ++ (channel ++ ":" ++ user) ++ "] " ++ user ++ ": " ++ text) ::
        (tool_loop chat executor (build_messages sysPrompt
          { compressPhase chatCompress session with
              messages := (compressPhase chatCompress session).messages ++ [Message.user text],
              updated_at := now })).1,
      { compressPhase chatCompress session with
          messages := (compressPhase chatCompress session).messages ++ [Message.user text],
          updated_at := now }, by simp, by simp, rfl,
      { compressPhase chatCompress session with
          messages := (compressPhase chatCompress session).messages ++ [Message.user text],
          updated_at := now }, ?_, by simp⟩
    simp [lastSave, List.filterMap_append, saveOf, hns]
  case neg.h_2 out rt nm heq =>
    refine ⟨[],
      Event.logAppend ("[" ++ (channel ++ ":" ++ user) ++ "] " ++ user ++ ": " ++ text) ::
        ((tool_loop chat executor (build_messages sysPrompt
          { compressPhase chatCompress session with
              messages := (compressPhase chatCompress session).messages ++ [Message.user text],
              updated_at := now })).1 ++
          Event.save { compressPhase chatCompress session with
              messages := ((compressPhase chatCompress session).messages ++
                [Message.user text]) ++ nm,
              updated_at := now } ::
            (match rt with
              | some r =>
                [Event.logAppend ("[" ++ (channel ++ ":" ++ user) ++ "] 1koro: " ++ r)]
              | none => [])),
      { compressPhase chatCompress session with
          messages := (compressPhase chatCompress session).messages ++ [Message.user text],
          updated_at := now }, by cases rt <;> simp, by simp, rfl,
      { compressPhase chatCompress session with
          messages := ((compressPhase chatCompress session).messages ++
            [Message.user text]) ++ nm,
          updated_at := now }, ?_, by simp⟩
    cases rt <;>
      simp [lastSave, List.filterMap_append, saveOf, hns]

/-- C10: an LLM response with neither tool calls nor text terminates the loop
at once with no assistant message appended and no reply text; `handle_message`
then completes successfully with an absent reply and the session's persisted
history for the turn gains only the user message. -/
theorem c10_empty_response (chatCompress : Except String LlmResponse) (chat : ChatOracle)
    (executor : Executor) (sysPrompt : String) (now : Int) (session : Session)
    (text channel user : String)
    (h : chat 0 = .ok ⟨none, []⟩) :
    (∀ ms : List Message, tool_loop chat executor ms = ([Event.chatLoop 0], .ok (none, []))) ∧
    ∃ s3 : Session,
      (handle_message chatCompress chat executor sysPrompt now session text channel user).2 =
        .ok (⟨none, []⟩, s3) ∧
      s3.messages = (compressPhase chatCompress session).messages ++ [Message.user text] ∧
      s3.summary = (compressPhase chatCompress session).summary ∧
      lastSave (handle_message chatCompress chat executor sysPrompt now session
        text channel user).1 = some s3 := by
  have hloop : ∀ ms : List Message,
      tool_loop chat executor ms = ([Event.chatLoop 0], .ok (none, [])) := by
    intro ms
    show toolLoopAux chat executor MAX_TOOL_ITERATIONS 0 ms [] = _
    rw [show MAX_TOOL_ITERATIONS = 9 + 1 from rfl]
    simp [toolLoopAux, h]
  refine ⟨hloop, ?_⟩
  unfold handle_message
  by_cases hth : session.messages.length ≥ SESSION_COMPRESS_THRESHOLD <;>
    simp only [hth, if_true, if_false, ite_true, ite_false, hloop] <;>
    refine ⟨{ compressPhase chatCompress session with
        messages := ((compressPhase chatCompress session).messages ++
          [Message.user text]) ++ [],
        updated_at := now }, ?_, ?_, ?_, ?_⟩ <;>
    simp [lastSave, saveOf, List.filterMap_append]

/-- Witness for C10 at a concrete empty LLM response. -/
theorem c10_witness :
    (∀ ms : List Message,
      tool_loop (fun _ => .ok ⟨none, []⟩) (fun _ _ => .ok ⟨"r"⟩) ms =
        ([Event.chatLoop 0], .ok (none, []))) ∧
    ∃ s3 : Session,
      (handle_message (.error "llm down") (fun _ => .ok ⟨none, []⟩) (fun _ _ => .ok ⟨"r"⟩)
          "sys" 0 ⟨"cli:alice", [], none, 0⟩ "hi" "cli" "alice").2 =
        .ok (⟨none, []⟩, s3) ∧
      s3.messages = (compressPhase (.error "llm down") ⟨"cli:alice", [], none, 0⟩).messages ++
        [Message.user "hi"] ∧
      s3.summary = (compressPhase (.error "llm down") ⟨"cli:alice", [], none, 0⟩).summary ∧
      lastSave (handle_message (.error "llm down") (fun _ => .ok ⟨none, []⟩)
        (fun _ _ => .ok ⟨"r"⟩) "sys" 0 ⟨"cli:alice", [], none, 0⟩ "hi" "cli" "alice").1 =
        some s3 :=
  c10_empty_response (.error "llm down") (fun _ => .ok ⟨none, []⟩) (fun _ _ => .ok ⟨"r"⟩)
    "sys" 0 ⟨"cli:alice", [], none, 0⟩ "hi" "cli" "alice" rfl

/-- C4 counterexample: a *successful* compression (the summarization call
returns `Ok`) of a session at the threshold, with no prior summary and a
response whose content is absent, really compresses the history (20 messages
become 10) yet leaves `summary = some ""` — an *empty* summary, contradicting
the claim that after a successful compression the summary is non-empty. -/
theorem c4_counterexample :
    (compressPhase (.ok ⟨none, []⟩)
        ⟨"k", List.replicate 20 (Message.user "m"), none, 0⟩).summary = some "" ∧
    (compressPhase (.ok ⟨none, []⟩)
        ⟨"k", List.replicate 20 (Message.user "m"), none, 0⟩).messages.length = 10 := by
  constructor <;> rfl

/-- C4 (amended): compression is gated on `messages.length ≥ 20` checked
before the user turn is added — below the threshold it is a no-op; after a
successful compression the history is exactly its newer half
(`⌈oldLen / 2⌉` messages) and the summary is `some` text which is non-empty
whenever the newly produced summary text is non-empty (an LLM success with
empty content and no prior summary leaves it empty). -/
theorem c4_compression_amended (cr : Except String LlmResponse) (s : Session)
    (resp : LlmResponse) :
    (s.messages.length < SESSION_COMPRESS_THRESHOLD → compressPhase cr s = s) ∧
    (cr = .ok resp →
      (compress_session cr s).messages.length = (s.messages.length + 1) / 2 ∧
      ∃ t, (compress_session cr s).summary = some t ∧
        (resp.content.getD "" ≠ "" → t ≠ "")) := by
  constructor
  · intro hlt
    unfold compressPhase
    rw [if_neg (by omega)]
  · rintro rfl
    refine ⟨?_, ?_⟩
    · simp only [compress_session, List.length_drop]
      omega
    · cases hs : s.summary with
      | none => exact ⟨resp.content.getD "", by simp [compress_session, hs], fun h => h⟩
      | some prev =>
        by_cases hc : (prev ++ "\n\n" ++ resp.content.getD "").utf8ByteSize >
            MAX_SUMMARY_LENGTH
        · exact ⟨resp.content.getD "", by simp [compress_session, hs, hc], fun h => h⟩
        · refine ⟨prev ++ "\n\n" ++ resp.content.getD "",
            by simp [compress_session, hs, hc], fun _ heq => ?_⟩
          have hlen := congrArg String.length heq
          simp [String.length_append] at hlen
          exact absurd hlen.1.2 (by decide)

set_option maxRecDepth 4000 in
/-- C5 counterexample: with a prior summary of 667 three-byte characters and
new text `"x"`, the merged text has 670 characters — under the claimed
2000-character cap — yet the code discards the prior summary, because the
comparison is on the UTF-8 *byte* length (2004 bytes > 2000). -/
theorem c5_counterexample :
    (compress_session (.ok ⟨some "x", []⟩)
        ⟨"k", [], some (String.mk (List.replicate 667 'あ')), 0⟩).summary = some "x" ∧
    (String.mk (List.replicate 667 'あ') ++ "\n\n" ++ "x").length ≤ 2000 ∧
    some "x" ≠
      some (String.mk (List.replicate 667 'あ') ++ "\n\n" ++ "x") := by
  refine ⟨?_, by decide, by decide⟩
  decide

/-- C5 (amended): on a successful compression the resulting summary is the
prior summary concatenated with the new text with a blank-line separator,
except that the prior summary is discarded when the concatenation exceeds
`MAX_SUMMARY_LENGTH = 2000` measured in UTF-8 *bytes* (Rust `String::len`),
not characters; with no prior summary it is the new text alone. -/
theorem c5_summary_merge_amended (s : Session) (resp : LlmResponse) (prev : String) :
    (s.summary = some prev →
      (compress_session (.ok resp) s).summary =
        some (if (prev ++ "\n\n" ++ resp.content.getD "").utf8ByteSize > MAX_SUMMARY_LENGTH
          then resp.content.getD ""
          else prev ++ "\n\n" ++ resp.content.getD "")) ∧
    (s.summary = none →
      (compress_session (.ok resp) s).summary = some (resp.content.getD "")) := by
  constructor <;> intro hs <;> simp [compress_session, hs]

/-- One retryable attempt of `OpenRouterClient::chat`: the error is recorded
as `lastErr` and the loop moves on to the next attempt. -/
theorem chatGo_retryable_step (oracle : AttemptOracle) (fuel attempt : Nat)
    (le : Option String) (h : retryable (oracle attempt)) :
    chatGo oracle (fuel+1) attempt le =
      ((if attempt > 0 then [2 ^ (attempt - 1)] else []) ++
        (chatGo oracle fuel (attempt+1) (some (attemptErrMsg (oracle attempt)))).1,
       (chatGo oracle fuel (attempt+1) (some (attemptErrMsg (oracle attempt)))).2) := by
  cases ho : oracle attempt with
  | netErr e => simp [chatGo, ho, attemptErrMsg]
  | httpResp status body parsed =>
    rw [ho] at h
    simp only [retryable] at h
    simp only [chatGo, ho, attemptErrMsg]
    rw [if_pos h]

/-- C7: `OpenRouterClient::chat` makes up to `MAX_RETRIES = 2` additional
attempts beyond the first on network failure, HTTP 429 or any 5xx, sleeping
1 s then 2 s before the retries; when all three attempts are retryable
failures the *last* error is surfaced; a response after two retries is
returned normally; and any other non-2xx status on the first attempt is a
hard failure returned immediately with no sleeps. -/
theorem c7_retry_policy :
    (∀ oracle : AttemptOracle,
      retryable (oracle 0) → retryable (oracle 1) → retryable (oracle 2) →
      chat_with_retries oracle = ([1, 2], .error (attemptErrMsg (oracle 2)))) ∧
    (∀ (oracle : AttemptOracle) (status : Nat) (body : String)
        (parsed : Except String ChatResponse) (cr : ChatResponse)
        (c : Choice) (rest : List Choice),
      retryable (oracle 0) → retryable (oracle 1) →
      oracle 2 = .httpResp status body parsed →
      200 ≤ status → status ≤ 299 →
      parsed = .ok cr → cr.choices = c :: rest →
      chat_with_retries oracle =
        ([1, 2], .ok ⟨c.message.content, c.message.tool_calls.getD []⟩)) ∧
    (∀ (oracle : AttemptOracle) (status : Nat) (body : String)
        (parsed : Except String ChatResponse),
      oracle 0 = .httpResp status body parsed →
      ¬ retryable (oracle 0) →
      ¬ (200 ≤ status ∧ status ≤ 299) →
      chat_with_retries oracle = ([], .error (attemptErrMsg (oracle 0)))) := by
  refine ⟨?_, ?_, ?_⟩
  · intro oracle h0 h1 h2
    have e0 : chat_with_retries oracle = chatGo oracle (2+1) 0 none := rfl
    rw [e0, chatGo_retryable_step oracle 2 0 none h0]
    rw [show chatGo oracle 2 1 (some (attemptErrMsg (oracle 0))) =
      chatGo oracle (1+1) 1 (some (attemptErrMsg (oracle 0))) from rfl]
    rw [chatGo_retryable_step oracle 1 1 _ h1]
    rw [show chatGo oracle 1 2 (some (attemptErrMsg (oracle 1))) =
      chatGo oracle (0+1) 2 (some (attemptErrMsg (oracle 1))) from rfl]
    rw [chatGo_retryable_step oracle 0 2 _ h2]
    simp [chatGo]
  · intro oracle status body parsed cr c rest h0 h1 ho2 hs1 hs2 hp hc
    have e0 : chat_with_retries oracle = chatGo oracle (2+1) 0 none := rfl
    rw [e0, chatGo_retryable_step oracle 2 0 none h0]
    rw [show chatGo oracle 2 1 (some (attemptErrMsg (oracle 0))) =
      chatGo oracle (1+1) 1 (some (attemptErrMsg (oracle 0))) from rfl]
    rw [chatGo_retryable_step oracle 1 1 _ h1]
    have hnr : ¬ (status = 429 ∨ (500 ≤ status ∧ status ≤ 599)) := by omega
    have hsucc : ¬ ¬ (200 ≤ status ∧ status ≤ 299) := by omega
    simp only [chatGo, ho2, hp, hc]
    rw [if_neg hnr, if_neg hsucc]
    simp
  · intro oracle status body parsed ho0 hnr hns
    rw [ho0] at hnr
    simp only [retryable] at hnr
    have e0 : chat_with_retries oracle = chatGo oracle (2+1) 0 none := rfl
    rw [e0]
    simp only [chatGo, ho0, attemptErrMsg]
    rw [if_neg hnr, if_pos hns]
    simp

/-- Truncation to 64 bits lands below `2 ^ 64`. -/
theorem w64_lt (x : Nat) : w64 x < 2 ^ 64 :=
  Nat.mod_lt _ (by norm_num)

/-- The SipHash digest of any byte list is a 64-bit value. -/
theorem sipBlocks_lt (len : Nat) : ∀ (bs : List Nat) (s : SipState),
    sipBlocks len bs s < 2 ^ 64
  | b0 :: b1 :: b2 :: b3 :: b4 :: b5 :: b6 :: b7 :: rest, s =>
    sipBlocks_lt len rest (sipCompress (le64 [b0, b1, b2, b3, b4, b5, b6, b7]) s)
  | [], _ => w64_lt _
  | [_], _ => w64_lt _
  | [_, _], _ => w64_lt _
  | [_, _, _], _ => w64_lt _
  | [_, _, _, _], _ => w64_lt _
  | [_, _, _, _, _], _ => w64_lt _
  | [_, _, _, _, _, _], _ => w64_lt _
  | [_, _, _, _, _, _, _], _ => w64_lt _

/-- The key hash is a 64-bit value. -/
theorem defaultHash_lt (key : List Nat) : defaultHash key < 2 ^ 64 :=
  sipBlocks_lt _ _ _

/-- A number below `16 ^ k` is determined by its `k` base-16 digits. -/
theorem hexDigits_inj : ∀ (k n m : Nat), n < 16 ^ k → m < 16 ^ k →
    (∀ i, i < k → n / 16 ^ i % 16 = m / 16 ^ i % 16) → n = m := by
  intro k
  induction k with
  | zero =>
    intro n m hn hm _
    simp only [pow_zero] at hn hm
    omega
  | succ k ih =>
    intro n m hn hm h
    have h0 := h 0 (Nat.succ_pos _)
    simp only [pow_zero, Nat.div_one] at h0
    have hd : n / 16 = m / 16 := by
      refine ih (n / 16) (m / 16) ?_ ?_ ?_
      · rw [Nat.div_lt_iff_lt_mul (by norm_num : (0:Nat) < 16), ← pow_succ]
        exact hn
      · rw [Nat.div_lt_iff_lt_mul (by norm_num : (0:Nat) < 16), ← pow_succ]
        exact hm
      · intro i hi
        have hsucc := h (i+1) (Nat.succ_lt_succ hi)
        rw [Nat.div_div_eq_div_mul, Nat.div_div_eq_div_mul, ← pow_succ']
        exact hsucc
    omega

/-- Hex digit characters are distinct for distinct digits. -/
theorem hexChar_inj : ∀ d1, d1 < 16 → ∀ d2, d2 < 16 →
    hexChar d1 = hexChar d2 → d1 = d2 := by decide

/-- Equal maps over `range k` agree pointwise below `k`. -/
theorem map_range_inj {α : Type} (k : Nat) (f g : Nat → α)
    (h : (List.range k).map f = (List.range k).map g) : ∀ i, i < k → f i = g i := by
  intro i hi
  have hlen : i < ((List.range k).map f).length := by simpa using hi
  have hg := List.getElem_of_eq h hlen
  simpa using hg

/-- The 16-digit hexadecimal rendering is injective on 64-bit values. -/
theorem toHex16_inj (n m : Nat) (hn : n < 2 ^ 64) (hm : m < 2 ^ 64)
    (h : toHex16 n = toHex16 m) : n = m := by
  have hdata := congrArg String.data h
  simp only [toHex16] at hdata
  have hmaps := map_range_inj 16
    (fun i => hexChar (n / 16 ^ (15 - i) % 16))
    (fun i => hexChar (m / 16 ^ (15 - i) % 16)) hdata
  refine hexDigits_inj 16 n m (by norm_num at hn ⊢; omega) (by norm_num at hm ⊢; omega) ?_
  intro i hi
  have hj : 15 - i < 16 := by omega
  have hc := hmaps (15 - i) hj
  simp only [] at hc
  have hii : 15 - (15 - i) = i := by omega
  rw [hii] at hc
  exact hexChar_inj _ (Nat.mod_lt _ (by norm_num)) _ (Nat.mod_lt _ (by norm_num)) hc

/-- C6 counterexample: the claim that two different keys never map to the same
session filename is false — the filename is a 16-hex-digit rendering of a
64-bit hash, so the (infinitely many) byte-string keys cannot all map to
distinct filenames; by the pigeonhole principle some two distinct keys
collide. -/
theorem c6_counterexample :
    ¬ ∀ (k1 k2 : List Nat), k1 ≠ k2 → session_filename k1 ≠ session_filename k2 := by
  intro hall
  obtain ⟨x, y, hxy, hfxy⟩ := Finite.exists_ne_map_eq_of_infinite
    (fun k : List Nat => (⟨defaultHash k, defaultHash_lt k⟩ : Fin (2 ^ 64)))
  have hh : defaultHash x = defaultHash y := congrArg Fin.val hfxy
  exact hall x y hxy (by simp [session_filename, hh])

/-- C6 (amended): the filename is the deterministic fixed-width hexadecimal
rendering of the key's 64-bit hash, so keys whose hashes differ never map to
the same on-disk session file; distinct keys can only collide by colliding in
the 64-bit hash itself. -/
theorem c6_filename_inj_of_hash_ne (k1 k2 : List Nat)
    (h : defaultHash k1 ≠ defaultHash k2) :
    session_filename k1 ≠ session_filename k2 := by
  intro heq
  exact h (toHex16_inj _ _ (defaultHash_lt k1) (defaultHash_lt k2) heq)

/-- Witness for the amended C6 on the concrete keys `[]` and `[0]`. -/
theorem c6_witness :
    defaultHash [] ≠ defaultHash [0] ∧
    session_filename [] ≠ session_filename [0] :=
  ⟨by decide, c6_filename_inj_of_hash_ne [] [0] (by decide)⟩

/-- serde round-trip for `FunctionCall`. -/
theorem functionCall_roundtrip (f : FunctionCall) :
    FunctionCall.fromJson f.toJson = some f := by
  cases f
  rfl

/-- serde round-trip for `ToolCall`. -/
theorem toolCall_roundtrip (tc : ToolCall) :
    ToolCall.fromJson tc.toJson = some tc := by
  obtain ⟨id, type_, f⟩ := tc
  cases f
  rfl

/-- serde round-trip for a list of tool calls. -/
theorem parseList_toolCalls (tcs : List ToolCall) :
    parseList ToolCall.fromJson (tcs.map ToolCall.toJson) = some tcs := by
  induction tcs with
  | nil => rfl
  | cons tc rest ih =>
    simp [parseList, toolCall_roundtrip, ih]

/-- serde round-trip for `Message`. -/
theorem message_roundtrip (m : Message) :
    Message.fromJson m.toJson = some m := by
  obtain ⟨role, content, tool_calls, tool_call_id⟩ := m
  cases content <;> cases tool_calls <;> cases tool_call_id <;>
    simp [Message.toJson, Message.fromJson, optStrField, Json.getField, Json.asStr,
      List.lookup, parseList_toolCalls]

/-- serde round-trip for a message list. -/
theorem parseList_messages (ms : List Message) :
    parseList Message.fromJson (ms.map Message.toJson) = some ms := by
  induction ms with
  | nil => rfl
  | cons m rest ih =>
    simp [parseList, message_roundtrip, ih]

/-- serde round-trip for `Session`. -/
theorem session_roundtrip (s : Session) :
    Session.fromJson s.toJson = some s := by
  obtain ⟨key, messages, summary, updated_at⟩ := s
  cases summary <;>
    simp [Session.toJson, Session.fromJson, optStrField, Json.getField, Json.asStr,
      List.lookup, parseList_messages]

/-- Inserting a record for an unseen key appends it. -/
theorem insertLater_new (acc : List (String × Session)) (s : Session)
    (hnone : ∀ p ∈ acc, p.1 ≠ s.key) :
    insertLater acc s = acc ++ [(s.key, s)] := by
  induction acc with
  | nil => rfl
  | cons q rest ih =>
    obtain ⟨k, e⟩ := q
    have hk : k ≠ s.key := hnone (k, e) (List.mem_cons_self _ _)
    simp only [insertLater, if_neg hk, List.cons_append]
    rw [ih (fun p hp => hnone p (List.mem_cons_of_mem _ hp))]

/-- Helper: `insertLater` never introduces a key different from the record's own. -/
theorem insertLater_ne (acc : List (String × Session)) (s : Session) (key : String)
    (hacc : ∀ q ∈ acc, q.1 ≠ key) (hs : s.key ≠ key) :
    ∀ q ∈ insertLater acc s, q.1 ≠ key := by
  induction acc with
  | nil =>
    intro q hq
    simp only [insertLater, List.mem_singleton] at hq
    rw [hq]
    exact hs
  | cons p rest ih =>
    obtain ⟨k, e⟩ := p
    intro q hq
    by_cases hk : k = s.key
    · simp only [insertLater, if_pos hk] at hq
      rcases List.mem_cons.mp hq with h1 | h2
      · rw [h1]
        exact fun hkey => (hacc (k, e) (List.mem_cons_self _ _)) hkey
      · exact hacc q (List.mem_cons_of_mem _ h2)
    · simp only [insertLater, if_neg hk] at hq
      rcases List.mem_cons.mp hq with h1 | h2
      · rw [h1]
        exact hacc (k, e) (List.mem_cons_self _ _)
      · exact ih (fun r hr => hacc r (List.mem_cons_of_mem _ hr)) q h2

/-- The startup-scan fold keeps every key distinct from `key` as long as no
scanned record carries `key`. -/
theorem loadSessions_fold_ne (key : String) :
    ∀ (d : Dir) (acc : List (String × Session)),
      (∀ p ∈ d, ∀ s', Session.fromJson p.2 = some s' → s'.key ≠ key) →
      (∀ q ∈ acc, q.1 ≠ key) →
      ∀ q ∈ d.foldl
        (fun acc entry =>
          match Session.fromJson entry.2 with
          | some s => insertLater acc s
          | none => acc) acc, q.1 ≠ key := by
  intro d
  induction d with
  | nil => intro acc _ hacc q hq; exact hacc q hq
  | cons p rest ih =>
    intro acc hd hacc q hq
    simp only [List.foldl_cons] at hq
    refine ih _ (fun r hr s' hs' => hd r (List.mem_cons_of_mem _ hr) s' hs') ?_ q hq
    cases hp : Session.fromJson p.2 with
    | none => simpa [hp] using hacc
    | some s' =>
      have hs' : s'.key ≠ key := hd p (List.mem_cons_self _ _) s' hp
      simpa [hp] using insertLater_ne acc s' key hacc hs'

/-- Association lookup lands on the appended record when all earlier keys
differ. -/
theorem lookup_append_of_ne (l : List (String × Session)) (key : String) (v : Session)
    (h : ∀ q ∈ l, q.1 ≠ key) :
    List.lookup key (l ++ [(key, v)]) = some v := by
  induction l with
  | nil => simp [List.lookup]
  | cons p rest ih =>
    obtain ⟨k, e⟩ := p
    have hk : k ≠ key := h (k, e) (List.mem_cons_self _ _)
    have hbeq : (key == k) = false := by
      simp [beq_iff_eq]
      exact fun hkey => hk hkey.symm
    simp only [List.cons_append, List.lookup, hbeq]
    exact ih (fun r hr => h r (List.mem_cons_of_mem _ hr))

/-- C8: persisting a session with `save_to_disk` and reconstructing a fresh
`SessionStore` over the same directory (a process restart) yields the very
same in-memory session for that key — message list and summary byte-for-byte
equal — provided no *other* file in the directory claims the same session
key (in that case the startup scan's later-timestamp-wins rule applies). -/
theorem c8_roundtrip (dir : Dir) (key : String) (s : Session)
    (hother : ∀ p ∈ dir, p.1 ≠ session_filename (keyBytes key) →
      ∀ s', Session.fromJson p.2 = some s' → s'.key ≠ key)
    (hkey : s.key = key) :
    loadedSession (save_to_disk dir key s) key = some s := by
  unfold loadedSession save_to_disk setFile loadSessions
  rw [List.foldl_append]
  simp only [List.foldl_cons, List.foldl_nil, session_roundtrip]
  have hA : ∀ q ∈ (dir.filter
      (fun e => e.1 != session_filename (keyBytes key))).foldl
        (fun acc entry =>
          match Session.fromJson entry.2 with
          | some s => insertLater acc s
          | none => acc) [], q.1 ≠ key := by
    refine loadSessions_fold_ne key _ [] ?_ (by simp)
    intro p hp s' hs'
    have hmem := List.mem_filter.mp hp
    refine hother p hmem.1 ?_ s' hs'
    simpa using hmem.2
  rw [insertLater_new _ s (fun p hp => by rw [hkey]; exact hA p hp), hkey]
  exact lookup_append_of_ne _ key s hA

/-- Witness for C8: saving a one-message session into an empty directory and
reloading yields it unchanged. -/
theorem c8_witness :
    (⟨"cli:alice", [Message.user "hi"], some "sum", 7⟩ : Session).key = "cli:alice" ∧
    loadedSession
      (save_to_disk [] "cli:alice" ⟨"cli:alice", [Message.user "hi"], some "sum", 7⟩)
      "cli:alice" =
      some ⟨"cli:alice", [Message.user "hi"], some "sum", 7⟩ :=
  ⟨rfl, c8_roundtrip [] "cli:alice" ⟨"cli:alice", [Message.user "hi"], some "sum", 7⟩
    (by simp) rfl⟩

/-- C9 counterexample: a JSON-RPC request without an `id` is *not* treated as
a notification — the handler substitutes `null` for the missing id and sends
back a normal response, so "no response is sent" is false at this concrete
id-less `initialize` request. -/
theorem c9_counterexample :
    ¬ ∀ (serverName version : String) (toolsCall : ToolsCallFn) (req : JsonRpcRequest),
        req.id = none → rpcResponseSent serverName version toolsCall req = none := by
  intro hall
  have hx := hall "1koro" "0.1.0" (fun _ => .error (-32000, "x"))
    ⟨"2.0", none, "initialize", Json.null⟩ rfl
  simp [rpcResponseSent] at hx

/-- C9 (amended): a request that arrives without an `id` is processed as if
its id were JSON `null`: the endpoint always sends back exactly one HTTP 200
response whose JSON-RPC `id` field is `null`. -/
theorem c9_idless_gets_null_id_response (serverName version : String)
    (toolsCall : ToolsCallFn) (req : JsonRpcRequest) (h : req.id = none) :
    rpcResponseSent serverName version toolsCall req =
      some (handle_rpc serverName version toolsCall req) ∧
    (handle_rpc serverName version toolsCall req).1 = 200 ∧
    (handle_rpc serverName version toolsCall req).2.id = Json.null := by
  refine ⟨rfl, ?_, ?_⟩
  · unfold handle_rpc
    by_cases hv : req.jsonrpc ≠ "2.0"
    · rw [if_pos hv]
    · rw [if_neg hv]
      simp only []
      split <;> rfl
  · unfold handle_rpc
    simp only [h, Option.getD_none]
    by_cases hv : req.jsonrpc ≠ "2.0"
    · rw [if_pos hv]
      rfl
    · rw [if_neg hv]
      split <;> rfl

/-- Witness for the amended C9 at a concrete id-less request. -/
theorem c9_witness :
    (⟨"2.0", none, "tools/list", Json.null⟩ : JsonRpcRequest).id = none ∧
    (rpcResponseSent "1koro" "0.1.0" (fun _ => .error (-32000, "no memory"))
        ⟨"2.0", none, "tools/list", Json.null⟩ =
      some (handle_rpc "1koro" "0.1.0" (fun _ => .error (-32000, "no memory"))
        ⟨"2.0", none, "tools/list", Json.null⟩) ∧
    (handle_rpc "1koro" "0.1.0" (fun _ => .error (-32000, "no memory"))
        ⟨"2.0", none, "tools/list", Json.null⟩).1 = 200 ∧
    (handle_rpc "1koro" "0.1.0" (fun _ => .error (-32000, "no memory"))
        ⟨"2.0", none, "tools/list", Json.null⟩).2.id = Json.null) :=
  ⟨rfl, c9_idless_gets_null_id_response "1koro" "0.1.0"
    (fun _ => .error (-32000, "no memory")) ⟨"2.0", none, "tools/list", Json.null⟩ rfl⟩

end Koro
